import Mathlib

/-!
Verification of the Nemesis NLP indexing service
(`cmd/nlp/nlp/services/indexing.py`, class `IndexingService`).

Text is modelled as `List Char`.  The tiktoken `cl100k_base` token counter is
an abstract parameter `count : Text → Nat`.  The langchain
`RecursiveCharacterTextSplitter` and CPython `uuid.UUID` string parsing are
not part of this repository's sources; the splitter is modelled from the
spec (separator-priority recursive splitting with greedy merge and overlap
carry), and `uuid.UUID` from its documented string normalisation
(strip `urn:`/`uuid:` markers and braces, drop hyphens, require 32 hex
digits).
-/

namespace Nemesis

/-- Document text, modelled as a list of characters. -/
abbrev Text := List Char

/-- If `pat` is an initial segment of `xs`, return the remainder. -/
def stripHeadMatch : List Char → List Char → Option (List Char)
  | [], ys => some ys
  | _ :: _, [] => none
  | x :: xs, y :: ys => if x = y then stripHeadMatch xs ys else none

/-- Remove every occurrence of `pat` from `xs` (Python `str.replace(pat, "")`),
fuelled by the input length. -/
def removeAllAux (pat : List Char) : Nat → List Char → List Char
  | 0, xs => xs
  | _ + 1, [] => []
  | fuel + 1, x :: rest =>
    match stripHeadMatch pat (x :: rest) with
    | some tail => removeAllAux pat fuel tail
    | none => x :: removeAllAux pat fuel rest

/-- Remove every occurrence of `pat` from `xs`. -/
def removeAll (pat : List Char) (xs : List Char) : List Char :=
  removeAllAux pat xs.length xs

/-- Opening or closing curly brace (Python `strip` set for `uuid.UUID`). -/
def isBraceChar (c : Char) : Bool :=
  (c == Char.ofNat 123) || (c == Char.ofNat 125)

/-- Python `str.strip` over the two curly-brace characters. -/
def stripBraces (cs : List Char) : List Char :=
  ((cs.dropWhile isBraceChar).reverse.dropWhile isBraceChar).reverse

/-- Value of one hexadecimal digit, `none` for a non-hex character. -/
def hexDigitVal (c : Char) : Option Nat :=
  if '0' ≤ c ∧ c ≤ '9' then some (c.toNat - '0'.toNat)
  else if 'a' ≤ c ∧ c ≤ 'f' then some (c.toNat - 'a'.toNat + 10)
  else if 'A' ≤ c ∧ c ≤ 'F' then some (c.toNat - 'A'.toNat + 10)
  else none

/-- Value of a hexadecimal string, `none` if any character is not hex. -/
def hexValue (cs : List Char) : Option Nat :=
  cs.foldl
    (fun acc c =>
      match acc, hexDigitVal c with
      | some a, some v => some (a * 16 + v)
      | _, _ => none)
    (some 0)

/-- CPython `uuid.UUID(hex_string)`: drop `urn:` and `uuid:` markers, strip
surrounding braces, drop hyphens, then require exactly 32 hex digits; the
result is the UUID's 128-bit integer value.  `none` models the `ValueError`
raised on malformed input. -/
def parseUUID (s : String) : Option Nat :=
  let step1 := removeAll "uuid:".toList (removeAll "urn:".toList s.toList)
  let hex := removeAll ['-'] (stripBraces step1)
  if hex.length = 32 then hexValue hex else none

/-- Concatenation of a list of texts. -/
def joinT : List Text → Text
  | [] => []
  | t :: ts => t ++ joinT ts

/-- Concatenated images of `f` (used to flatten the recursive splitting). -/
def concatMap (f : α → List β) : List α → List β
  | [] => []
  | x :: xs => f x ++ concatMap f xs

/-- Split `t` at every occurrence of the separator `sep`, dropping the
separators; fuelled auxiliary. -/
def splitOnAux (sep : List Char) : Nat → List Char → List Char → List Text
  | 0, acc, xs => [acc.reverse ++ xs]
  | _ + 1, acc, [] => [acc.reverse]
  | fuel + 1, acc, x :: rest =>
    match stripHeadMatch sep (x :: rest) with
    | some tail => acc.reverse :: splitOnAux sep fuel [] tail
    | none => splitOnAux sep fuel (x :: acc) rest

/-- Split `t` at every occurrence of the separator `sep`. -/
def splitOnSep (sep : List Char) (t : Text) : List Text :=
  splitOnAux sep (t.length + 1) [] t

/-- Modelled from the spec: the prioritized separator list of the recursive
splitter — paragraph break, line break, sentence punctuation, whitespace;
the character-boundary last resort is the base case of `splitBySeps`. -/
def separators : List (List Char) := [['\n', '\n'], ['\n'], ['.', ' '], [' ']]

/-- Modelled from the spec: recursively split `t` on the prioritized
separators until every piece fits the token budget, falling back to single
characters when no separator is left. -/
def splitBySeps (count : Text → Nat) (maxTokens : Nat) :
    List (List Char) → Text → List Text
  | [], t => t.map (fun c => [c])
  | sep :: rest, t =>
    concatMap
      (fun p => if count p ≤ maxTokens then [p] else splitBySeps count maxTokens rest p)
      (splitOnSep sep t)

/-- Modelled from the spec: when a chunk is emitted, keep a trailing run of
pieces whose token count is at most `overlapTokens` and which still fits the
budget together with the incoming piece `d`; drop pieces from the front
otherwise. -/
def shrinkToFit (count : Text → Nat) (maxTokens overlapTokens : Nat) (d : Text) :
    List Text → List Text
  | [] => []
  | x :: xs =>
    if count (joinT (x :: xs)) ≤ overlapTokens ∧ count (joinT (x :: xs ++ [d])) ≤ maxTokens
    then x :: xs
    else shrinkToFit count maxTokens overlapTokens d xs

/-- Modelled from the spec: greedily merge the small pieces into chunks of at
most `maxTokens` tokens, carrying an overlap of at most `overlapTokens`
tokens into the next chunk. -/
def mergeSplits (count : Text → Nat) (maxTokens overlapTokens : Nat) :
    List Text → List Text → List Text
  | acc, [] => if acc.isEmpty then [] else [joinT acc]
  | acc, d :: rest =>
    if acc.isEmpty then
      mergeSplits count maxTokens overlapTokens [d] rest
    else if count (joinT (acc ++ [d])) ≤ maxTokens then
      mergeSplits count maxTokens overlapTokens (acc ++ [d]) rest
    else
      joinT acc ::
        mergeSplits count maxTokens overlapTokens
          (shrinkToFit count maxTokens overlapTokens d acc ++ [d]) rest

/-- Modelled from the spec: `RecursiveCharacterTextSplitter.split_text` —
recursive separator-priority splitting followed by greedy merging with
overlap carry, all sizes measured by the abstract token counter `count`. -/
def split_text (count : Text → Nat) (maxTokens overlapTokens : Nat) (t : Text) :
    List Text :=
  mergeSplits count maxTokens overlapTokens [] (splitBySeps count maxTokens separators t)

/-- One `pb.FileDataPlaintextMessage.data` entry: a unit of work referencing
the plaintext artifact to retrieve, plus provenance fields. -/
structure DocumentEvent where
  object_id : String
  originating_object_id : String
  originating_object_path : String
  originating_object_converted_pdf : String
  deriving DecidableEq

/-- One `pb.FileDataPlaintextMessage`: the shared `metadata.source` label and
the ordered `data` sequence of document events. -/
structure IndexMessage where
  source : String
  data : List DocumentEvent
  deriving DecidableEq

/-- The metadata dict built for each split text in `process_message`.
`object_id` holds the parsed 128-bit UUID value, not the raw string. -/
structure ChunkMetadata where
  source : String
  object_id : Nat
  originating_object_id : String
  originating_object_path : String
  originating_object_pdf : String
  deriving DecidableEq

/-- Observable actions of one `process_message` run, in program order:
the `print` to stdout, acquisition and release of the downloaded file,
the batched `aadd_texts` call, the two `ainfo` log calls (which pass
`object_id` as a structured key), and the `aexception` log call (which
passes only the exception and a fixed `message`). -/
inductive Effect where
  | stdout (object_id : Nat)
  | download (object_id : Nat)
  | release (object_id : Nat)
  | addTexts (texts : List Text) (metadatas : List ChunkMetadata)
  | logInfoLoading (numDocs : Nat) (object_id : Nat)
  | logInfoLoaded (numDocs : Nat) (object_id : Nat)
  | logError (exc : String) (message : String)
  deriving DecidableEq

/-- Outcomes of the external collaborators: `storage.download`, reading the
downloaded file's contents, and `vector_store.aadd_texts`; `Except.error`
models a raised exception. -/
structure World where
  download : Nat → Except String Unit
  readText : Nat → Except String Text
  addTexts : List Text → List ChunkMetadata → Except String Unit

/-- The `message` keyword passed to `logger.aexception`. -/
def excMessage : String := "exception in processing a plaintext file"

/-- The `ValueError` text raised by `uuid.UUID` on malformed input. -/
def uuidErrMessage : String := "ValueError: badly formed hexadecimal UUID string"

/-- The chunk overlap computed in `IndexingService.__init__`:
`chunk_overlap = int(chunk_size/15)`. -/
def chunkOverlap (chunk_size : Nat) : Nat := chunk_size / 15

/-- The body of `process_message`'s `for` loop for one `data` entry.
`uuid.UUID(data.object_id)` runs before the `try` block, so its failure is
the `Except.error` result; every exception inside the `try` block is caught
and turns into a trailing `logError` effect.  The two `with` statements
release the downloaded file on every exit path of their bodies, before the
`except` clause runs. -/
def processEvent (count : Text → Nat) (chunk_size : Nat) (w : World)
    (source : String) (d : DocumentEvent) : Except String (List Effect) :=
  match parseUUID d.object_id with
  | none => Except.error uuidErrMessage
  | some u =>
    Except.ok
      (match w.download u with
       | Except.error e => [Effect.stdout u, Effect.logError e excMessage]
       | Except.ok _ =>
         match w.readText u with
         | Except.error e =>
           [Effect.stdout u, Effect.download u, Effect.release u,
            Effect.logError e excMessage]
         | Except.ok text =>
           if text.any (fun c => !c.isWhitespace) then
             let docs := split_text count chunk_size (chunkOverlap chunk_size) text
             let md : ChunkMetadata :=
               { source := source
                 object_id := u
                 originating_object_id := d.originating_object_id
                 originating_object_path := d.originating_object_path
                 originating_object_pdf := d.originating_object_converted_pdf }
             let metadata := List.replicate docs.length md
             match w.addTexts docs metadata with
             | Except.error e =>
               [Effect.stdout u, Effect.download u,
                Effect.logInfoLoading docs.length u, Effect.addTexts docs metadata,
                Effect.release u, Effect.logError e excMessage]
             | Except.ok _ =>
               [Effect.stdout u, Effect.download u,
                Effect.logInfoLoading docs.length u, Effect.addTexts docs metadata,
                Effect.logInfoLoaded docs.length u, Effect.release u]
           else
             [Effect.stdout u, Effect.download u, Effect.release u])

/-- The effects one event contributes when its processing returns normally
(empty when `uuid.UUID` raises, since nothing has run yet). -/
def eventTrace (count : Text → Nat) (chunk_size : Nat) (w : World)
    (source : String) (d : DocumentEvent) : List Effect :=
  match processEvent count chunk_size w source d with
  | Except.ok effs => effs
  | Except.error _ => []

/-- The `for data in event.data` loop: an uncaught exception aborts the loop,
leaving later events unprocessed. -/
def processEvents (count : Text → Nat) (chunk_size : Nat) (w : World)
    (source : String) : List DocumentEvent → List Effect × Option String
  | [] => ([], none)
  | d :: rest =>
    match processEvent count chunk_size w source d with
    | Except.error e => ([], some e)
    | Except.ok effs =>
      let r := processEvents count chunk_size w source rest
      (effs ++ r.1, r.2)

/-- `IndexingService.process_message`: the accumulated effect trace and, when
an exception escapes the method, the exception. -/
def process_message (count : Text → Nat) (chunk_size : Nat) (w : World)
    (msg : IndexMessage) : List Effect × Option String :=
  processEvents count chunk_size w msg.source msg.data

/-- Recognizer for the batched upsert effect. -/
def isAddTexts : Effect → Bool
  | Effect.addTexts _ _ => true
  | _ => false

/-- Recognizer for the error-log effect. -/
def isLogError : Effect → Bool
  | Effect.logError _ _ => true
  | _ => false

/-- The `object_id` structured-context key a log effect carries, if any:
the two `ainfo` calls pass `object_id=object_id`; `aexception` does not. -/
def logContextObjectId : Effect → Option Nat
  | Effect.logInfoLoading _ u => some u
  | Effect.logInfoLoaded _ u => some u
  | _ => none

@[simp] lemma joinT_singleton (t : Text) : joinT [t] = t := by
  simp [joinT]

lemma mem_concatMap {α β : Type} {f : α → List β} {l : List α} {b : β} :
    b ∈ concatMap f l ↔ ∃ a ∈ l, b ∈ f a := by
  induction l with
  | nil => simp [concatMap]
  | cons x xs ih => simp [concatMap, List.mem_append, ih]

lemma shrinkToFit_spec (count : Text → Nat) (m o : Nat) (d : Text) :
    ∀ l : List Text, shrinkToFit count m o d l = [] ∨
      count (joinT (shrinkToFit count m o d l ++ [d])) ≤ m := by
  intro l
  induction l with
  | nil => exact Or.inl rfl
  | cons x xs ih =>
    by_cases h : count (joinT (x :: xs)) ≤ o ∧ count (joinT (x :: xs ++ [d])) ≤ m
    · right
      simp only [shrinkToFit]
      rw [if_pos h]
      exact h.2
    · simp only [shrinkToFit]
      rw [if_neg h]
      exact ih

lemma mergeSplits_bound (count : Text → Nat) (m o : Nat) :
    ∀ (splits acc : List Text),
      (acc ≠ [] → count (joinT acc) ≤ m) →
      (∀ s ∈ splits, count s ≤ m) →
      ∀ chunk ∈ mergeSplits count m o acc splits, count chunk ≤ m := by
  intro splits
  induction splits with
  | nil =>
    intro acc hacc _ chunk hchunk
    simp only [mergeSplits] at hchunk
    by_cases h : acc.isEmpty
    · rw [if_pos h] at hchunk
      simp at hchunk
    · rw [if_neg h] at hchunk
      simp at hchunk
      subst hchunk
      exact hacc (fun hnil => h (by simp [hnil]))
  | cons d rest ih =>
    intro acc hacc hsplits chunk hchunk
    simp only [mergeSplits] at hchunk
    by_cases h1 : acc.isEmpty
    · rw [if_pos h1] at hchunk
      refine ih [d] (fun _ => ?_) (fun s hs => hsplits s (by simp [hs])) chunk hchunk
      simpa using hsplits d (by simp)
    · rw [if_neg h1] at hchunk
      by_cases h2 : count (joinT (acc ++ [d])) ≤ m
      · rw [if_pos h2] at hchunk
        exact ih (acc ++ [d]) (fun _ => h2)
          (fun s hs => hsplits s (by simp [hs])) chunk hchunk
      · rw [if_neg h2] at hchunk
        rcases List.mem_cons.mp hchunk with h | h
        · subst h
          exact hacc (fun hnil => h1 (by simp [hnil]))
        · refine ih _ (fun _ => ?_) (fun s hs => hsplits s (by simp [hs])) chunk h
          rcases shrinkToFit_spec count m o d acc with hnil | hle
          · rw [hnil]
            simpa using hsplits d (by simp)
          · exact hle

lemma splitBySeps_bound (count : Text → Nat) (m : Nat) :
    ∀ (seps : List (List Char)) (t s : Text),
      s ∈ splitBySeps count m seps t → count s ≤ m ∨ ∃ c, s = [c] := by
  intro seps
  induction seps with
  | nil =>
    intro t s hs
    simp only [splitBySeps] at hs
    rcases List.mem_map.mp hs with ⟨c, _, rfl⟩
    exact Or.inr ⟨c, rfl⟩
  | cons sep rest ih =>
    intro t s hs
    simp only [splitBySeps] at hs
    rcases mem_concatMap.mp hs with ⟨p, _, hp⟩
    by_cases h : count p ≤ m
    · rw [if_pos h] at hp
      simp at hp
      subst hp
      exact Or.inl h
    · rw [if_neg h] at hp
      exact ih p s hp

/-- Claim C4: for nonempty text and a valid configuration
(`maxTokens > 0`, `0 ≤ overlapTokens < maxTokens`), every chunk produced by
the text splitter has token count at most `maxTokens`, provided no single
character of the alphabet exceeds the budget on its own (true of the
configured `cl100k_base` tokenizer at the configured chunk sizes). -/
theorem c4_chunk_token_bound (count : Text → Nat) (maxTokens overlapTokens : Nat)
    (t : Text) (_ht : t ≠ []) (_hmax : 0 < maxTokens)
    (_hov : overlapTokens < maxTokens)
    (hchar : ∀ c : Char, count [c] ≤ maxTokens) :
    ∀ chunk ∈ split_text count maxTokens overlapTokens t, count chunk ≤ maxTokens := by
  intro chunk hchunk
  simp only [split_text] at hchunk
  refine mergeSplits_bound count maxTokens overlapTokens
    (splitBySeps count maxTokens separators t) [] (fun h => absurd rfl h) ?_ chunk hchunk
  intro s hs
  rcases splitBySeps_bound count maxTokens separators t s hs with h | ⟨c, rfl⟩
  · exact h
  · exact hchar c

/-- Witness for C4 at a concrete tokenizer, budget and text. -/
theorem c4_witness : List.length ("abcd".toList) ≤ 5 :=
  c4_chunk_token_bound List.length 5 1 ("ab cd ef gh".toList) (by decide) (by decide)
    (by decide) (fun c => by simp only [List.length_singleton]; omega)
    ("abcd".toList) (by decide)

/-- Claim C5: the chunk overlap configured in `IndexingService.__init__` is
`floor(text_chunk_size / 15)`, and for every positive chunk size it lies
strictly below the chunk size. -/
theorem c5_overlap_bound (chunk_size : Nat) (h : 0 < chunk_size) :
    chunkOverlap chunk_size = chunk_size / 15 ∧ chunkOverlap chunk_size < chunk_size :=
  ⟨rfl, Nat.div_lt_self h (by omega)⟩

/-- Witness for C5 at the concrete chunk size 510. -/
theorem c5_witness :
    chunkOverlap 510 = 510 / 15 ∧ chunkOverlap 510 < 510 :=
  c5_overlap_bound 510 (by decide)

/-- Claim C9: chunking is deterministic — identical tokenizer, budget,
overlap and input text always yield the identical chunk sequence. -/
theorem c9_chunking_deterministic (c₁ c₂ : Text → Nat) (m₁ m₂ o₁ o₂ : Nat)
    (t₁ t₂ : Text) (hc : c₁ = c₂) (hm : m₁ = m₂) (ho : o₁ = o₂) (ht : t₁ = t₂) :
    split_text c₁ m₁ o₁ t₁ = split_text c₂ m₂ o₂ t₂ := by
  subst hc
  subst hm
  subst ho
  subst ht
  rfl

/-- Witness for C9 at a concrete configuration and text. -/
theorem c9_witness :
    split_text List.length 5 1 ("ab cd".toList) =
      split_text List.length 5 1 ("ab cd".toList) :=
  c9_chunking_deterministic List.length List.length 5 5 1 1
    ("ab cd".toList) ("ab cd".toList) rfl rfl rfl rfl

/-- A document event with a well-formed nil UUID. -/
def eventZero : DocumentEvent :=
  { object_id := "00000000-0000-0000-0000-000000000000"
    originating_object_id := "orig-id"
    originating_object_path := "C:/docs/report.docx"
    originating_object_converted_pdf := "pdf-id" }

/-- A second document event with a distinct well-formed UUID. -/
def eventOne : DocumentEvent :=
  { object_id := "00000000-0000-0000-0000-000000000001"
    originating_object_id := "orig-id-1"
    originating_object_path := "C:/docs/notes.txt"
    originating_object_converted_pdf := "pdf-id-1" }

/-- A document event whose `object_id` is not a well-formed UUID. -/
def eventBad : DocumentEvent :=
  { object_id := "not-a-uuid"
    originating_object_id := "orig-id-2"
    originating_object_path := "C:/docs/bad.txt"
    originating_object_converted_pdf := "pdf-id-2" }

/-- A world where every collaborator succeeds and the file reads back a
short four-word text. -/
def wOk : World :=
  { download := fun _ => Except.ok ()
    readText := fun _ => Except.ok ("ab cd ef gh".toList)
    addTexts := fun _ _ => Except.ok () }

/-- A world where the file reads back whitespace only. -/
def wBlank : World :=
  { download := fun _ => Except.ok ()
    readText := fun _ => Except.ok ("  \t ".toList)
    addTexts := fun _ _ => Except.ok () }

/-- A world where `storage.download` raises "not found". -/
def wNotFound : World :=
  { download := fun _ => Except.error "not found"
    readText := fun _ => Except.ok []
    addTexts := fun _ _ => Except.ok () }

/-- A world where reading the file for the nil UUID raises and every other
read succeeds. -/
def wHalf : World :=
  { download := fun _ => Except.ok ()
    readText := fun u =>
      if u = 0 then Except.error "not found" else Except.ok ("ab cd".toList)
    addTexts := fun _ _ => Except.ok () }

/-- A message carrying two well-formed document events. -/
def msgHalf : IndexMessage := { source := "web", data := [eventZero, eventOne] }

/-- The metadata record `process_message` builds for `eventZero` under
message source "web". -/
def mdZero : ChunkMetadata :=
  { source := "web"
    object_id := 0
    originating_object_id := "orig-id"
    originating_object_path := "C:/docs/report.docx"
    originating_object_pdf := "pdf-id" }

lemma processEvent_ok (count : Text → Nat) (cs : Nat) (w : World) (source : String)
    (d : DocumentEvent) (u : Nat) (hu : parseUUID d.object_id = some u) :
    processEvent count cs w source d = Except.ok (eventTrace count cs w source d) := by
  simp only [eventTrace, processEvent, hu]

lemma processEvents_all_parsed (count : Text → Nat) (cs : Nat) (w : World)
    (source : String) :
    ∀ l : List DocumentEvent, (∀ d ∈ l, (parseUUID d.object_id).isSome) →
      processEvents count cs w source l =
        (concatMap (eventTrace count cs w source) l, none) := by
  intro l
  induction l with
  | nil => intro _; rfl
  | cons d rest ih =>
    intro h
    obtain ⟨u, hu⟩ := Option.isSome_iff_exists.mp (h d (by simp))
    have hok := processEvent_ok count cs w source d u hu
    have hrest := ih (fun x hx => h x (by simp [hx]))
    simp only [processEvents, concatMap, hok, hrest]

/-- Claim C1 (amended): exceptions raised inside the per-event `try` block
(retrieval, reading, chunking, metadata construction, upsert) are caught and
non-fatal, so when every event's `object_id` parses, `process_message`
finishes without an escaping exception and every event in the message
contributes its own trace — but an exception while parsing `object_id`
itself is raised before the `try` block and is not covered (see the
counterexample). -/
theorem c1_inner_failures_isolated (count : Text → Nat) (cs : Nat) (w : World)
    (msg : IndexMessage) (h : ∀ d ∈ msg.data, (parseUUID d.object_id).isSome) :
    (process_message count cs w msg).2 = none ∧
    (process_message count cs w msg).1 =
      concatMap (eventTrace count cs w msg.source) msg.data := by
  have hall := processEvents_all_parsed count cs w msg.source msg.data h
  simp [process_message, hall]

/-- Claim C1 fails as stated: a malformed `object_id` raises before the
`try` block, the exception escapes `process_message`, and the sibling
well-formed event is never processed (the trace is empty). -/
theorem c1_counterexample :
    (process_message List.length 5 wOk
      { source := "web", data := [eventBad, eventZero] }).2 ≠ none ∧
    (process_message List.length 5 wOk
      { source := "web", data := [eventBad, eventZero] }).1 = [] := by
  decide

/-- Witness for the amended C1: one event's read fails, the sibling is still
processed, and no exception escapes. -/
theorem c1_witness :
    (process_message List.length 5 wHalf msgHalf).2 = none ∧
    (process_message List.length 5 wHalf msgHalf).1 =
      concatMap (eventTrace List.length 5 wHalf msgHalf.source) msgHalf.data :=
  c1_inner_failures_isolated List.length 5 wHalf msgHalf (by decide)

/-- Claim C2: an event whose retrieved text is empty or whitespace-only is
skipped silently — the trace holds only the stdout line, the acquisition and
the release: no chunking, no metadata, no upsert, no error. -/
theorem c2_empty_text_skipped (count : Text → Nat) (cs : Nat) (w : World)
    (source : String) (d : DocumentEvent) (u : Nat) (text : Text)
    (hu : parseUUID d.object_id = some u)
    (hdl : w.download u = Except.ok ())
    (hrd : w.readText u = Except.ok text)
    (hws : ∀ c ∈ text, c.isWhitespace) :
    processEvent count cs w source d =
      Except.ok [Effect.stdout u, Effect.download u, Effect.release u] := by
  have hany : text.any (fun c => !c.isWhitespace) = false := by
    rw [List.any_eq_false]
    intro c hc
    simp [hws c hc]
  simp [processEvent, hu, hdl, hrd, hany]

/-- Witness for C2 with a whitespace-only file. -/
theorem c2_witness :
    processEvent List.length 5 wBlank "web" eventZero =
      Except.ok [Effect.stdout 0, Effect.download 0, Effect.release 0] :=
  c2_empty_text_skipped List.length 5 wBlank "web" eventZero 0 ("  \t ".toList)
    (by decide) rfl rfl (by decide)

lemma eventTrace_text_cases (count : Text → Nat) (cs : Nat) (w : World)
    (source : String) (d : DocumentEvent) (u : Nat) (text : Text)
    (hu : parseUUID d.object_id = some u)
    (hdl : w.download u = Except.ok ())
    (hrd : w.readText u = Except.ok text)
    (hne : text.any (fun c => !c.isWhitespace) = true) :
    ∃ tail,
      (tail = [Effect.logInfoLoaded
                 (split_text count cs (chunkOverlap cs) text).length u,
               Effect.release u] ∨
       ∃ e, tail = [Effect.release u, Effect.logError e excMessage]) ∧
      eventTrace count cs w source d =
        [Effect.stdout u, Effect.download u,
         Effect.logInfoLoading (split_text count cs (chunkOverlap cs) text).length u,
         Effect.addTexts (split_text count cs (chunkOverlap cs) text)
           (List.replicate (split_text count cs (chunkOverlap cs) text).length
             (ChunkMetadata.mk source u d.originating_object_id
               d.originating_object_path d.originating_object_converted_pdf))] ++
          tail := by
  cases hadd : w.addTexts (split_text count cs (chunkOverlap cs) text)
      (List.replicate (split_text count cs (chunkOverlap cs) text).length
        (ChunkMetadata.mk source u d.originating_object_id
          d.originating_object_path d.originating_object_converted_pdf)) with
  | error e =>
    refine ⟨[Effect.release u, Effect.logError e excMessage], Or.inr ⟨e, rfl⟩, ?_⟩
    simp [eventTrace, processEvent, hu, hdl, hrd, hne, hadd]
  | ok r =>
    cases r
    refine ⟨[Effect.logInfoLoaded
               (split_text count cs (chunkOverlap cs) text).length u,
             Effect.release u], Or.inl rfl, ?_⟩
    simp [eventTrace, processEvent, hu, hdl, hrd, hne, hadd]

lemma addTexts_batch_spec (count : Text → Nat) (cs : Nat) (w : World)
    (source : String) (d : DocumentEvent) (u : Nat) (text : Text)
    (hu : parseUUID d.object_id = some u)
    (hdl : w.download u = Except.ok ())
    (hrd : w.readText u = Except.ok text)
    (hne : text.any (fun c => !c.isWhitespace) = true) :
    ∀ ts ms, Effect.addTexts ts ms ∈ eventTrace count cs w source d →
      ms.length = ts.length ∧
      ms = List.replicate ts.length
        (ChunkMetadata.mk source u d.originating_object_id
          d.originating_object_path d.originating_object_converted_pdf) := by
  intro ts ms hmem
  obtain ⟨tail, htail, htr⟩ :=
    eventTrace_text_cases count cs w source d u text hu hdl hrd hne
  rw [htr] at hmem
  rcases htail with rfl | ⟨e, rfl⟩ <;>
  · simp only [List.cons_append, List.nil_append, List.mem_cons] at hmem
    rcases hmem with h | h | h | h | h | h | h
    all_goals first
      | (cases h; simp [List.length_replicate])
      | cases h

/-- Claim C3: for an event with non-empty text, the metadata batch passed to
the upsert has one record per chunk and every record is the same dict built
from the message source and the event's provenance fields. -/
theorem c3_metadata_parallel (count : Text → Nat) (cs : Nat) (w : World)
    (source : String) (d : DocumentEvent) (u : Nat) (text : Text)
    (hu : parseUUID d.object_id = some u)
    (hdl : w.download u = Except.ok ())
    (hrd : w.readText u = Except.ok text)
    (hne : text.any (fun c => !c.isWhitespace) = true) :
    ∀ ts ms, Effect.addTexts ts ms ∈ eventTrace count cs w source d →
      ms.length = ts.length ∧
      ms = List.replicate ts.length
        (ChunkMetadata.mk source u d.originating_object_id
          d.originating_object_path d.originating_object_converted_pdf) :=
  addTexts_batch_spec count cs w source d u text hu hdl hrd hne

/-- Witness for C3: concrete two-chunk split with two identical records. -/
theorem c3_witness :
    ([mdZero, mdZero] : List ChunkMetadata).length =
      ["abcd".toList, "efgh".toList].length ∧
    ([mdZero, mdZero] : List ChunkMetadata) =
      List.replicate (["abcd".toList, "efgh".toList]).length
        (ChunkMetadata.mk "web" 0 eventZero.originating_object_id
          eventZero.originating_object_path
          eventZero.originating_object_converted_pdf) :=
  c3_metadata_parallel List.length 5 wOk "web" eventZero 0 ("ab cd ef gh".toList)
    (by decide) rfl rfl (by decide) ["abcd".toList, "efgh".toList]
    [mdZero, mdZero] (by decide)

/-- Claim C6: for an event with non-empty text, exactly one upsert call is
made (even when that call itself fails), carrying the full batch of chunks
and their metadata together. -/
theorem c6_single_batched_upsert (count : Text → Nat) (cs : Nat) (w : World)
    (source : String) (d : DocumentEvent) (u : Nat) (text : Text)
    (hu : parseUUID d.object_id = some u)
    (hdl : w.download u = Except.ok ())
    (hrd : w.readText u = Except.ok text)
    (hne : text.any (fun c => !c.isWhitespace) = true) :
    (eventTrace count cs w source d).countP isAddTexts = 1 ∧
    Effect.addTexts (split_text count cs (chunkOverlap cs) text)
        (List.replicate (split_text count cs (chunkOverlap cs) text).length
          (ChunkMetadata.mk source u d.originating_object_id
            d.originating_object_path d.originating_object_converted_pdf)) ∈
      eventTrace count cs w source d := by
  obtain ⟨tail, htail, htr⟩ :=
    eventTrace_text_cases count cs w source d u text hu hdl hrd hne
  rw [htr]
  rcases htail with rfl | ⟨e, rfl⟩ <;>
    simp [List.countP_cons, List.countP_append, isAddTexts]

/-- Witness for C6 at a concrete event and world. -/
theorem c6_witness :
    (eventTrace List.length 5 wOk "web" eventZero).countP isAddTexts = 1 ∧
    Effect.addTexts (split_text List.length 5 (chunkOverlap 5) ("ab cd ef gh".toList))
        (List.replicate
          (split_text List.length 5 (chunkOverlap 5) ("ab cd ef gh".toList)).length
          (ChunkMetadata.mk "web" 0 eventZero.originating_object_id
            eventZero.originating_object_path
            eventZero.originating_object_converted_pdf)) ∈
      eventTrace List.length 5 wOk "web" eventZero :=
  c6_single_batched_upsert List.length 5 wOk "web" eventZero 0
    ("ab cd ef gh".toList) (by decide) rfl rfl (by decide)

/-- Claim C7: whenever the downloaded resource is acquired, it is released on
the same run — on success, on the empty-content skip, and on every caught
failure (read failure or upsert failure). -/
theorem c7_release_on_every_path (count : Text → Nat) (cs : Nat) (w : World)
    (source : String) (d : DocumentEvent) (u : Nat)
    (h : Effect.download u ∈ eventTrace count cs w source d) :
    Effect.release u ∈ eventTrace count cs w source d := by
  cases hp : parseUUID d.object_id with
  | none => simp [eventTrace, processEvent, hp] at h
  | some v =>
    cases hdl : w.download v with
    | error e => simp [eventTrace, processEvent, hp, hdl] at h
    | ok r0 =>
      cases r0
      cases hrd : w.readText v with
      | error e =>
        simp [eventTrace, processEvent, hp, hdl, hrd] at h ⊢
        simp [h]
      | ok text =>
        by_cases hne : text.any (fun c => !c.isWhitespace)
        · obtain ⟨tail, htail, htr⟩ :=
            eventTrace_text_cases count cs w source d v text hp hdl hrd hne
          rw [htr] at h ⊢
          rcases htail with rfl | ⟨e, rfl⟩ <;>
          · simp at h ⊢
            simp [h]
        · simp [eventTrace, processEvent, hp, hdl, hrd, hne] at h ⊢
          simp [h]

/-- Witness for C7 on the all-success world. -/
theorem c7_witness :
    Effect.release 0 ∈ eventTrace List.length 5 wOk "web" eventZero :=
  c7_release_on_every_path List.length 5 wOk "web" eventZero 0 (by decide)

/-- Claim C8 fails as stated: when retrieval raises "not found", exactly one
error entry is logged, but no log entry carrying the event's `object_id` as
structured context exists — `logger.aexception` is called without the
`object_id` keyword the `ainfo` calls pass. -/
theorem c8_counterexample :
    (eventTrace List.length 5 wNotFound "web" eventZero).countP isLogError = 1 ∧
    (eventTrace List.length 5 wNotFound "web" eventZero).countP
      (fun eff => isLogError eff && decide (logContextObjectId eff = some 0)) = 0 := by
  decide

/-- Claim C8 (amended): when retrieval fails, processing completes without an
escaping exception, no upsert call is made, and exactly one error entry is
logged — carrying the exception and the fixed message, but not the event's
`object_id` in its structured context. -/
theorem c8_retrieval_failure_contained (count : Text → Nat) (cs : Nat) (w : World)
    (source : String) (d : DocumentEvent) (u : Nat) (e : String)
    (hu : parseUUID d.object_id = some u)
    (hdl : w.download u = Except.error e) :
    processEvent count cs w source d =
      Except.ok [Effect.stdout u, Effect.logError e excMessage] ∧
    (eventTrace count cs w source d).countP isAddTexts = 0 ∧
    (eventTrace count cs w source d).countP isLogError = 1 ∧
    (eventTrace count cs w source d).all
      (fun eff => (logContextObjectId eff).isNone) = true := by
  refine ⟨?_, ?_, ?_, ?_⟩ <;>
    simp [eventTrace, processEvent, hu, hdl, isAddTexts, isLogError,
      logContextObjectId, List.countP_cons]

/-- Witness for the amended C8 on the "not found" world. -/
theorem c8_witness :
    processEvent List.length 5 wNotFound "web" eventZero =
      Except.ok [Effect.stdout 0, Effect.logError "not found" excMessage] ∧
    (eventTrace List.length 5 wNotFound "web" eventZero).countP isAddTexts = 0 ∧
    (eventTrace List.length 5 wNotFound "web" eventZero).countP isLogError = 1 ∧
    (eventTrace List.length 5 wNotFound "web" eventZero).all
      (fun eff => (logContextObjectId eff).isNone) = true :=
  c8_retrieval_failure_contained List.length 5 wNotFound "web" eventZero 0
    "not found" (by decide) rfl

/-- Claim C10: `uuid.UUID(data.object_id)` runs before any other step — a
parse failure is the raised `ValueError` with nothing else having happened —
and on success every metadata record stores the parsed 128-bit UUID value,
not the raw string. -/
theorem c10_metadata_stores_parsed_uuid (count : Text → Nat) (cs : Nat)
    (w : World) (source : String) (d : DocumentEvent) :
    (parseUUID d.object_id = none →
      processEvent count cs w source d = Except.error uuidErrMessage) ∧
    (∀ u, parseUUID d.object_id = some u →
      ∀ ts ms, Effect.addTexts ts ms ∈ eventTrace count cs w source d →
        ∀ m ∈ ms, m.object_id = u) := by
  constructor
  · intro hn
    simp [processEvent, hn]
  · intro u hu ts ms hmem m hm
    cases hdl : w.download u with
    | error e => simp [eventTrace, processEvent, hu, hdl] at hmem
    | ok r0 =>
      cases r0
      cases hrd : w.readText u with
      | error e => simp [eventTrace, processEvent, hu, hdl, hrd] at hmem
      | ok text =>
        by_cases hne : text.any (fun c => !c.isWhitespace)
        · have hpar :=
            addTexts_batch_spec count cs w source d u text hu hdl hrd hne ts ms hmem
          rw [hpar.2] at hm
          rw [List.eq_of_mem_replicate hm]
        · simp [eventTrace, processEvent, hu, hdl, hrd, hne] at hmem

/-- Witness for C10: the concrete record stores the parsed nil UUID. -/
theorem c10_witness : mdZero.object_id = 0 :=
  (c10_metadata_stores_parsed_uuid List.length 5 wOk "web" eventZero).2 0
    (by decide) ["abcd".toList, "efgh".toList] [mdZero, mdZero] (by decide)
    mdZero (by decide)

end Nemesis
